import Mathlib

/-!
# gddload — verification of the synchronization engine

Shallow embedding of the gddload source (gdamms/gddload):
`src/src/gddload/file.py`, `src/src/gddload/size.py`, `src/src/progress.py`,
`src/src/config.py`, and the pre-refactor monolithic `src/main.py`.

Python numbers are modelled as `ℚ` (sizes may become fractional because
`Size.__str__` divides the stored value in place), fallible Python
expressions (`TypeError`, `ZeroDivisionError`, failed `assert`, `raise`)
as `Except`, and the Google Drive service as explicit oracles.
-/

namespace Gddload

/-- `FileStatus` from `file.py` (lines 26-36): the eight status codes. -/
inductive FileStatus where
  | PENDING
  | DOWNLOADING
  | DOWNLOADED
  | ALREADY_PRESENT
  | CORRUPTED
  | FAILED
  | CHECKED
  | ALREADY_CHECKED
deriving DecidableEq

/-- The numeric codes the source assigns (note the gap: 5 is unused). -/
def FileStatus.code : FileStatus → Nat
  | .PENDING => 0
  | .DOWNLOADING => 1
  | .DOWNLOADED => 2
  | .ALREADY_PRESENT => 3
  | .CORRUPTED => 4
  | .FAILED => 6
  | .CHECKED => 7
  | .ALREADY_CHECKED => 8

/-- `FileType` from `file.py` (lines 85-90). -/
inductive FileType where
  | UNKNOWN
  | FILE
  | FOLDER
deriving DecidableEq

/-- `Config` from `src/src/config.py`: the four flags the engine reads
(`file_id` and `save_path` are opaque to the core logic). -/
structure Config where
  check : Bool
  overwrite : Bool
  force : Bool
  retry : Nat

/-- `Config.__init__` sets `self.check = check or retry > 0`
(retry implies check). -/
def Config.make (check overwrite force : Bool) (retry : Nat) : Config :=
  { check := check || decide (0 < retry)
    overwrite := overwrite
    force := force
    retry := retry }

/-- The clamp performed by the `Progress.progress` setter in
`src/src/progress.py`: out-of-range values are clamped to `[0, 1]`
(a warning is printed, not modelled). -/
def pclamp (x : ℚ) : ℚ := max 0 (min x 1)

/-- Python runtime errors that the folder-progress read can raise. -/
inductive PyErr where
  | typeError
  | zeroDivisionError
deriving DecidableEq

/-- The fields of the `File` class (`file.py` lines 96-114) that its
`size` and `progress` property getters read: `self.type`, the stored
`self._size.size`, the stored `self._progress.progress`, and
`self.children`.  Stored size is `ℚ` because `Size.__str__` can leave a
fractional value behind. -/
inductive FNode where
  | mk (type : FileType) (storedSize : ℚ) (storedProgress : ℚ)
      (children : List FNode)

def FNode.type : FNode → FileType
  | .mk t _ _ _ => t

def FNode.storedSize : FNode → ℚ
  | .mk _ sz _ _ => sz

def FNode.storedProgress : FNode → ℚ
  | .mk _ _ p _ => p

def FNode.children : FNode → List FNode
  | .mk _ _ _ cs => cs

mutual
/-- The `size` property getter (`file.py` lines 125-129): a folder
recomputes `sum([child.size for child in self.children])` on every read
and stores it; any other node returns the stored `self._size.size`. -/
def FNode.size : FNode → ℚ
  | .mk t sz _ cs => if t = .FOLDER then sizeSum cs else sz

/-- `sum([child.size for child in self.children])`, left to right. -/
def sizeSum : List FNode → ℚ
  | [] => 0
  | c :: cs => FNode.size c + sizeSum cs
end

mutual
/-- The `progress` property getter of `src/src/gddload/file.py`
(lines 135-143).  The getter returns the `Progress` OBJECT
`self._progress`; for a folder it first evaluates
`sum([child.progress * child.size for child in self.children]) / self.size`.
Each term multiplies a `Progress` object by an `int`, and the `Progress`
class of `src/src/progress.py` defines no `__mul__`/`__rmul__`, so the
first term whose `child.progress` read succeeds raises `TypeError`; for
an empty folder `sum([]) / self.size` is `0 / 0` and raises
`ZeroDivisionError`.  `.ok q` means the read returned a `Progress`
object whose stored fraction is `q`. -/
def progressRead : FNode → Except PyErr ℚ
  | .mk t sz p cs =>
    let sizeVal := FNode.size (.mk t sz p cs)
    let p1 := if sizeVal = 0 then (1 : ℚ) else p
    if t = .FOLDER then
      match progressTerms cs with
      | .error e => .error e
      | .ok l =>
        if sizeVal = 0 then .error .zeroDivisionError
        else .ok (pclamp (l.sum / sizeVal))
    else .ok p1

/-- Evaluation of the list comprehension
`[child.progress * child.size for child in self.children]`: each
`child.progress` read runs first (and may itself raise); a term whose
`child.progress` read succeeds then raises `TypeError` at the
unsupported `Progress * int`. -/
def progressTerms : List FNode → Except PyErr (List ℚ)
  | [] => .ok []
  | c :: _ =>
    match progressRead c with
    | .error e => .error e
    | .ok _ => .error .typeError
end

mutual
/-- The `progress` property getter of the pre-refactor `src/main.py`
(lines 412-420): returns a plain `float`; `size == 0` returns `1`
early; a folder stores the clamped weighted mean
`sum([child.progress * child.size]) / self.size` and returns it. -/
def progressMain : FNode → ℚ
  | .mk t sz p cs =>
    let sizeVal := FNode.size (.mk t sz p cs)
    if sizeVal = 0 then 1
    else if t = .FOLDER then pclamp (progressMainSum cs / sizeVal)
    else p

/-- `sum([child.progress * child.size for child in self.children])` in
`src/main.py`, where `child.progress` is the recursively computed float. -/
def progressMainSum : List FNode → ℚ
  | [] => 0
  | c :: cs => progressMain c * FNode.size c + progressMainSum cs
end

/-- The loop of `Size.__str__` (`src/src/gddload/size.py` lines 14-24):
`while self.size >= 1024 and unit < len(Size.UNITS) - 1:
self.size /= 1024; unit += 1`.  `len(UNITS) - 1 = 8`.  Returns the
final stored `self.size` and the selected unit index (the `%.2f`
text formatting itself is not modelled; the state effect and unit
choice are). -/
def sizeStrLoop (s : ℚ) (unit : Nat) : ℚ × Nat :=
  if 1024 ≤ s ∧ unit < 8 then sizeStrLoop (s / 1024) (unit + 1)
  else (s, unit)
termination_by 8 - unit

/-- `Size.__str__` entered with `unit = 0`: the pair of the stored size
AFTER the call (the method divides `self.size` in place) and the unit
index used in the rendered text. -/
def Size_str (s : ℚ) : ℚ × Nat := sizeStrLoop s 0

/-! ## Per-file download pipeline (`file.py` lines 200-334)

The mutable state of one `File` object during `scan`/`download_file`,
instrumented with the full history of `self.status` writes (the
`status` setter) and the start offset of every content fetch
(`files().get_media` + `MediaIoBaseDownload` always transfers the whole
file from offset 0 into a file opened with mode `wb`). -/

structure DState where
  status : FileStatus
  progress : ℚ
  trace : List FileStatus
  fetches : List Nat
deriving DecidableEq

/-- A fresh `File` object: `__init__` sets `self._status = PENDING`,
`self._progress = Progress(0)`. -/
def DState.init : DState :=
  { status := .PENDING, progress := 0, trace := [.PENDING], fetches := [] }

/-- The `status` setter (`file.py` lines 120-123): store the new status
(and trigger a redraw, not modelled here). -/
def setStatus (s : DState) (st : FileStatus) : DState :=
  { s with status := st, trace := s.trace ++ [st] }

/-- The `progress` setter (`file.py` lines 145-148) goes through the
clamping `Progress.progress` setter. -/
def setProgress (s : DState) (x : ℚ) : DState :=
  { s with progress := pclamp x }

/-- `File.download` (`file.py` lines 222-235): status `DOWNLOADING`,
one full content fetch from offset 0 (never resumed) with progress
fractions written as chunks arrive (ending at 1), then status
`DOWNLOADED`. -/
def download (s : DState) : DState :=
  let s1 := setStatus s .DOWNLOADING
  let s2 := { s1 with fetches := s1.fetches ++ [0] }
  let s3 := setProgress s2 1
  setStatus s3 .DOWNLOADED

/-- `File.check_file` (`file.py` lines 293-304): hash the local file's
bytes and compare the hexdigest string to `self.sha256`.  The content
read back after the k-th fetch and the hash function are oracles. -/
def check_file (hash : List Nat → String) (content : List Nat)
    (sha256 : String) : Bool :=
  hash content == sha256

/-- `File.postcheck_file` (`file.py` lines 321-334) with the check
outcome abstracted: `checked` set status `CHECKED` then progress 1,
else set status `FAILED`; return `checked`. -/
def postcheck_file (checked : Bool) (s : DState) : DState × Bool :=
  if checked then (setProgress (setStatus s .CHECKED) 1, true)
  else (setStatus s .FAILED, false)

/-- `File.precheck_file` (`file.py` lines 306-319): `checked` set
status `ALREADY_CHECKED` then progress 1, else set status `CORRUPTED`. -/
def precheck_file (checked : Bool) (s : DState) : DState × Bool :=
  if checked then (setProgress (setStatus s .ALREADY_CHECKED) 1, true)
  else (setStatus s .CORRUPTED, false)

/-- `File.download_with_check` (`file.py` lines 246-253): download,
then postcheck.  `oracle k` is the postcheck outcome after the k-th
fetch performed by this `File` object (0-based). -/
def download_with_check (oracle : Nat → Bool) (s : DState) :
    DState × Bool :=
  let s1 := download s
  postcheck_file (oracle (s1.fetches.length - 1)) s1

/-- `File.download_with_retry` (`file.py` lines 255-270):
`retry == 0` is the final attempt; otherwise attempt once and on
failure recurse with `retry - 1`. -/
def download_with_retry (oracle : Nat → Bool) :
    Nat → DState → DState × Bool
  | 0, s => download_with_check oracle s
  | r + 1, s =>
    let p := download_with_check oracle s
    if p.2 then (p.1, true) else download_with_retry oracle r p.1

/-- How `File.should_download` can fail loudly. -/
inductive SdError where
  | assertionError
  | unexpectedStatus (st : FileStatus)
deriving DecidableEq

/-- `File.should_download` (`file.py` lines 200-220):
`assert self.type == FileType.FILE`; `force` ⇒ True; `PENDING` ⇒ True;
`CORRUPTED`/`ALREADY_PRESENT` ⇒ `overwrite`; `ALREADY_CHECKED` ⇒ False;
anything else raises `Exception(f'Unexpected status ...')`. -/
def should_download (cfg : Config) (type : FileType)
    (st : FileStatus) : Except SdError Bool :=
  if type ≠ .FILE then .error .assertionError
  else if cfg.force then .ok true
  else if st = .PENDING then .ok true
  else if st = .CORRUPTED ∨ st = .ALREADY_PRESENT then .ok cfg.overwrite
  else if st = .ALREADY_CHECKED then .ok false
  else .error (.unexpectedStatus st)

/-- `File.download_file` (`file.py` lines 237-244): if
`should_download()` then status `DOWNLOADING`, then
`download_with_retry(self.config.retry)` when `self.config.check`
else a bare `download()`. -/
def download_file (cfg : Config) (oracle : Nat → Bool) (s : DState) :
    Except SdError DState :=
  match should_download cfg .FILE s.status with
  | .error e => .error e
  | .ok false => .ok s
  | .ok true =>
    let s1 := setStatus s .DOWNLOADING
    if cfg.check then .ok (download_with_retry oracle cfg.retry s1).1
    else .ok (download s1)

/-- The status/progress writes `File.scan` (`file.py` lines 336-390)
performs on a FILE node after a successful metadata fetch:
`self.status = PENDING`, `self.progress = 0`; if the local file exists,
`self.status = ALREADY_PRESENT` and, when `not force and check`, the
precheck runs with outcome `pre`. -/
def scanFileStatus (cfg : Config) (localExists pre : Bool)
    (s : DState) : DState :=
  let s1 := setProgress (setStatus s .PENDING) 0
  if localExists then
    let s2 := setStatus s1 .ALREADY_PRESENT
    if ¬cfg.force ∧ cfg.check then (precheck_file pre s2).1 else s2
  else s1

/-- The whole lifecycle of one FILE node: fresh object, scanned, then
`download_file` during the download walk. -/
def fileRun (cfg : Config) (localExists pre : Bool)
    (oracle : Nat → Bool) : Except SdError DState :=
  download_file cfg oracle (scanFileStatus cfg localExists pre DState.init)

/-! ## Scan (`file.py` lines 336-390)

The remote store is a tree: per node, the `files().get` metadata call
either raises `HttpError` (`none`) or yields the response fields, the
local file at the node's path either exists with a given SHA-256
(`some h`) or not, and for folders the paginated `files().list` loop
yields pages each of which either raises `HttpError` or lists child
entries. -/

/-- The fields `scan` reads from the `files().get` response:
`name`, whether `'folder' in mimeType`, `int(size)`, and
`response.get('sha256Checksum', '')`. -/
structure Meta where
  name : String
  isFolder : Bool
  size : Nat
  sha256 : String
deriving DecidableEq

mutual
/-- One remote entry as seen through the service oracles. -/
inductive Remote where
  | node (meta : Option Meta) (localHash : Option String)
      (pages : List RPage)

/-- One `files().list` page: an `HttpError`, or the child entries. -/
inductive RPage where
  | fail
  | page (children : List Remote)
end

/-- The attributes of a `File` object that `scan` populates. -/
structure SNode where
  type : FileType
  name : String
  storedSize : Nat
  sha256 : String
  status : FileStatus
  progress : ℚ
  children : List SNode

/-- A child created by `File.child` / `File.__init__` before being
scanned: type `UNKNOWN`, empty name, size 0, status `PENDING`. -/
def newChild : SNode :=
  { type := .UNKNOWN, name := "", storedSize := 0, sha256 := ""
    status := .PENDING, progress := 0, children := [] }

mutual
/-- The `size` getter on scanned nodes: folders recompute the sum of
their children's sizes on every read. -/
def SNode.size : SNode → Nat
  | ⟨t, _, sz, _, _, _, cs⟩ => if t = .FOLDER then sizeSumS cs else sz

/-- `sum([child.size for child in self.children])`. -/
def sizeSumS : List SNode → Nat
  | [] => 0
  | c :: cs => SNode.size c + sizeSumS cs
end

mutual
/-- `File.scan`.  The whole body is a `try` whose `except HttpError`
handler prints and falls through, so `scan` always returns: a failed
metadata fetch leaves the object exactly as it was; otherwise the
attributes are populated, a FILE runs the already-present /
precheck logic, and a FOLDER loops over the pages, scanning each
listed child in order; an `HttpError` on a page aborts the loop at
this node (children scanned so far are kept, the trailing
`self.size = sum(...)` write is skipped) without propagating. -/
def scanNode (cfg : Config) : Remote → SNode → SNode
  | .node none _ _, s => s
  | .node (some m) lh pages, _ =>
    if m.isFolder then
      let r := scanPages cfg pages
      { type := .FOLDER, name := m.name
        storedSize := if r.2 then sizeSumS r.1 else 0
        sha256 := m.sha256, status := .PENDING, progress := 0
        children := r.1 }
    else
      let base : SNode :=
        { type := .FILE, name := m.name, storedSize := m.size
          sha256 := m.sha256, status := .PENDING, progress := 0
          children := [] }
      match lh with
      | none => base
      | some h =>
        if ¬cfg.force ∧ cfg.check then
          if h == m.sha256 then
            { base with status := .ALREADY_CHECKED, progress := 1 }
          else { base with status := .CORRUPTED }
        else { base with status := .ALREADY_PRESENT }

/-- The `while True` pagination loop: returns the children scanned so
far and whether the loop finished without an `HttpError`. -/
def scanPages (cfg : Config) : List RPage → List SNode × Bool
  | [] => ([], true)
  | .fail :: _ => ([], false)
  | .page rs :: rest =>
    let cs := scanChildren cfg rs
    let r := scanPages cfg rest
    (cs ++ r.1, r.2)

/-- `for f in children_files: child_file = self.child(f['id']);
child_file.scan()` — every entry is scanned, in arrival order. -/
def scanChildren (cfg : Config) : List Remote → List SNode
  | [] => []
  | r :: rs => scanNode cfg r newChild :: scanChildren cfg rs
end

/-! ## Recursive download (`file.py` lines 272-291)

The scanned tree at the start of the download walk: per node its type,
local path, scan-time status, and (for files) the postcheck-outcome
oracle of its content fetches.  The local filesystem's set of existing
directories is threaded through explicitly (`os.path.exists` /
`os.makedirs`). -/

inductive DTree where
  | mk (type : FileType) (path : String) (status : FileStatus)
      (oracle : Nat → Bool) (children : List DTree)

def DTree.type : DTree → FileType
  | .mk t _ _ _ _ => t

def DTree.path : DTree → String
  | .mk _ p _ _ _ => p

def DTree.status : DTree → FileStatus
  | .mk _ _ st _ _ => st

def DTree.children : DTree → List DTree
  | .mk _ _ _ _ cs => cs

mutual
/-- `File.download_recursive` (lines 286-291) with
`File.download_folder` (lines 272-284) inlined for the FOLDER case:
the folder's status is set to `DOWNLOADING`, the directory is created
if absent, every child is processed in `children` order, and the
status is then set to `DOWNLOADED` unconditionally.  A FILE runs
`download_file` on its scan-time status; a node whose type is neither
(scan failed, `UNKNOWN`) falls through both branches untouched.
Uncaught exceptions (`should_download` on an unexpected status)
propagate. -/
def download_recursive (cfg : Config) :
    DTree → List String → Except SdError (DTree × List String)
  | .mk .FOLDER path _ oracle cs, fs =>
    let fs1 := if path ∈ fs then fs else path :: fs
    match download_children cfg cs fs1 with
    | .error e => .error e
    | .ok r => .ok (.mk .FOLDER path .DOWNLOADED oracle r.1, r.2)
  | .mk .FILE path st oracle cs, fs =>
    match download_file cfg oracle
        { status := st, progress := 0, trace := [st], fetches := [] } with
    | .error e => .error e
    | .ok d => .ok (.mk .FILE path d.status oracle cs, fs)
  | .mk .UNKNOWN path st oracle cs, fs =>
    .ok (.mk .UNKNOWN path st oracle cs, fs)

/-- `for child in self.children: child.download_recursive()` —
sequential, in order; an exception aborts the walk. -/
def download_children (cfg : Config) :
    List DTree → List String → Except SdError (List DTree × List String)
  | [], fs => .ok ([], fs)
  | c :: cs, fs =>
    match download_recursive cfg c fs with
    | .error e => .error e
    | .ok r =>
      match download_children cfg cs r.2 with
      | .error e => .error e
      | .ok r2 => .ok (r.1 :: r2.1, r2.2)
end

/-- Statuses from which `should_download` returns (rather than
raising): every status a FILE node can actually hold at the end of a
scan, or any status at all under `force`. -/
def fileStatusSafe (cfg : Config) (st : FileStatus) : Bool :=
  cfg.force ||
    match st with
    | .PENDING | .CORRUPTED | .ALREADY_PRESENT | .ALREADY_CHECKED => true
    | _ => false

mutual
/-- Every FILE node in the tree holds a safe status. -/
def treeSafe (cfg : Config) : DTree → Bool
  | .mk t _ st _ cs =>
    (if t = .FILE then fileStatusSafe cfg st else true)
      && treeSafeList cfg cs

def treeSafeList (cfg : Config) : List DTree → Bool
  | [] => true
  | c :: cs => treeSafe cfg c && treeSafeList cfg cs
end

/-! ## Theorems -/

/-- `sizeSum` is the sum of the children's `size` getters. -/
theorem sizeSum_eq_map_sum (l : List FNode) :
    sizeSum l = (l.map FNode.size).sum := by
  induction l with
  | nil => simp [sizeSum]
  | cons c cs ih => simp [sizeSum, ih]

/-- C2: the claim says reading a folder's progress yields the weighted
mean `Σ (child.progress * child.size) / size`, `0.625` for children of
sizes 100 and 300 at progress 1 and 0.5.  On the packaged source
(`src/src/gddload/file.py` lines 135-143) the read instead raises
`TypeError`: the getter returns the `Progress` object and the folder
branch evaluates `child.progress * child.size` with no
`Progress.__mul__` defined.  The pre-refactor `src/main.py`
(lines 412-420), which works on floats, computes exactly the claimed
`0.625` — the spec describes the intent, the refactor broke it. -/
theorem folder_progress_read_raises_typeerror :
    progressRead (.mk .FOLDER 0 0
        [.mk .FILE 100 1 [], .mk .FILE 300 (1/2) []])
      = .error .typeError
    ∧ progressMain (.mk .FOLDER 0 0
        [.mk .FILE 100 1 [], .mk .FILE 300 (1/2) []])
      = 625/1000 := by
  constructor
  · simp [progressRead, progressTerms, FNode.size, sizeSum]
  · simp [progressMain, progressMainSum, FNode.size, sizeSum, pclamp]
    norm_num

/-- C3: the claim says a folder with no children (hence `size == 0`)
reads progress `1` with the division guarded.  In
`src/src/gddload/file.py` the `size == 0` branch merely stores `1` and
falls through: the folder branch then evaluates `sum([]) / self.size`
`= 0 / 0` and raises `ZeroDivisionError`.  The pre-refactor
`src/main.py` returns `1` early, as the claim states. -/
theorem empty_folder_progress_read_raises_zerodivision :
    progressRead (.mk .FOLDER 0 0 []) = .error .zeroDivisionError
    ∧ progressMain (.mk .FOLDER 0 0 []) = 1 := by
  constructor
  · simp [progressRead, progressTerms, FNode.size, sizeSum]
  · simp [progressMain, FNode.size, sizeSum]

/-- C7: a folder's `size` read recomputes `Σ child.size` from the
current children on every access; the stored `_size` value is ignored,
so the invariant `folder.size == Σ child.size` holds at any point, in
particular mid-scan, whatever stale value is stored. -/
theorem folder_size_recomputed_from_children
    (stale stale' p p' : ℚ) (cs : List FNode) :
    FNode.size (.mk .FOLDER stale p cs) = (cs.map FNode.size).sum
    ∧ FNode.size (.mk .FOLDER stale p cs)
      = FNode.size (.mk .FOLDER stale' p' cs) := by
  constructor <;> simp [FNode.size, sizeSum_eq_map_sum]

/-- C8: the claim says formatting the tree leaves every stored byte
count unchanged.  `Size.__str__` (`src/src/gddload/size.py` lines
14-24) divides `self.size` in place: rendering a 2048-byte size once
leaves `2` stored (2048 ≠ 2), and a subsequent render of the same
object therefore selects unit index 0 (`B`) instead of 1 (`KB`),
displaying `2.00 B` for a 2 KiB file. -/
theorem size_str_mutates_stored_size :
    (Size_str 2048).1 = 2 ∧ (2048 : ℚ) ≠ 2
    ∧ (Size_str 2048).2 = 1 ∧ (Size_str 2).2 = 0 := by
  refine ⟨?_, by norm_num, ?_, ?_⟩
  · simp [Size_str, sizeStrLoop]
    norm_num [sizeStrLoop]
  · simp [Size_str, sizeStrLoop]
    norm_num [sizeStrLoop]
  · simp [Size_str, sizeStrLoop]
    norm_num

/-- C5: the `should_download` decision for FILE nodes: `force` ⇒ true;
else `PENDING` ⇒ true; `CORRUPTED`/`ALREADY_PRESENT` ⇒ the `overwrite`
flag; `ALREADY_CHECKED` ⇒ false; any other status raises
(`Exception(f'Unexpected status ...')`) instead of returning. -/
theorem should_download_decision (cfg : Config) (st : FileStatus) :
    (cfg.force = true → should_download cfg .FILE st = .ok true)
    ∧ (cfg.force = false → st = .PENDING →
        should_download cfg .FILE st = .ok true)
    ∧ (cfg.force = false → (st = .CORRUPTED ∨ st = .ALREADY_PRESENT) →
        should_download cfg .FILE st = .ok cfg.overwrite)
    ∧ (cfg.force = false → st = .ALREADY_CHECKED →
        should_download cfg .FILE st = .ok false)
    ∧ (cfg.force = false →
        (st = .DOWNLOADED ∨ st = .CHECKED ∨ st = .FAILED ∨
          st = .DOWNLOADING) →
        should_download cfg .FILE st = .error (.unexpectedStatus st)) := by
  obtain ⟨c, o, f, r⟩ := cfg
  cases f <;> cases st <;> simp [should_download]

/-- Witness for C5 at concrete inputs: a fresh `PENDING` file is
downloaded, and a `DOWNLOADED` file reaching the check raises. -/
theorem should_download_decision_instance :
    should_download (Config.make false false false 0) .FILE .PENDING
      = .ok true
    ∧ should_download (Config.make false false false 0) .FILE .DOWNLOADED
      = .error (.unexpectedStatus .DOWNLOADED) :=
  ⟨(should_download_decision (Config.make false false false 0)
      .PENDING).2.1 rfl rfl,
   (should_download_decision (Config.make false false false 0)
      .DOWNLOADED).2.2.2.2 rfl (Or.inl rfl)⟩

/-- When every postcheck fails, `download_with_retry N` performs
exactly `N + 1` content fetches, all from offset 0, and leaves the
status `FAILED` (returning `False`). -/
theorem download_with_retry_all_fail (oracle : Nat → Bool)
    (h : ∀ i, oracle i = false) :
    ∀ (N : Nat) (s : DState),
      (download_with_retry oracle N s).1.fetches
          = s.fetches ++ List.replicate (N + 1) 0
      ∧ (download_with_retry oracle N s).1.status = .FAILED
      ∧ (download_with_retry oracle N s).2 = false := by
  intro N
  induction N with
  | zero =>
    intro s
    simp [download_with_retry, download_with_check, download,
      postcheck_file, setStatus, setProgress, h]
  | succ n ih =>
    intro s
    have hrec := ih ((download_with_check oracle s).1)
    simp only [download_with_retry, download_with_check, download,
      postcheck_file, setStatus, setProgress, h, if_false,
      Bool.false_eq_true] at hrec ⊢
    refine ⟨?_, hrec.2.1, hrec.2.2⟩
    rw [hrec.1]
    simp [List.replicate_succ]

/-- C1: with integrity checking configured (`check` set or
`retry > 0`) and a postcheck that fails on every attempt,
`download_with_retry N` performs exactly `N + 1` full download
attempts — each a whole-file fetch starting at offset 0, never a
resume — and in a fresh file's full pipeline (`scan` then
`download_file` with retry budget `r`) the node performs `r + 1`
fetches and ends with status `FAILED`. -/
theorem retry_budget_attempts_and_failed
    (oracle : Nat → Bool) (hfail : ∀ i, oracle i = false)
    (N : Nat) (s : DState)
    (c o f : Bool) (r : Nat) (hc : c = true ∨ 0 < r) :
    ((download_with_retry oracle N s).1.fetches
        = s.fetches ++ List.replicate (N + 1) 0
      ∧ (download_with_retry oracle N s).1.status = .FAILED)
    ∧ (∃ s', fileRun (Config.make c o f r) false false oracle = .ok s'
        ∧ s'.fetches = List.replicate (r + 1) 0
        ∧ s'.status = .FAILED) := by
  have hall := download_with_retry_all_fail oracle hfail
  refine ⟨⟨(hall N s).1, (hall N s).2.1⟩, ?_⟩
  have hcheck : (Config.make c o f r).check = true := by
    rcases hc with hc | hc
    · simp [Config.make, hc]
    · simp [Config.make, hc]
  refine ⟨(download_with_retry oracle r
      (setStatus (scanFileStatus (Config.make c o f r) false false
        DState.init) .DOWNLOADING)).1, ?_, ?_, ?_⟩
  · cases hf : (Config.make c o f r).force <;>
      simp [fileRun, download_file, should_download, scanFileStatus,
        setStatus, setProgress, DState.init, hf, hcheck, Config.make] <;>
      (rintro rfl rfl; rcases hc with hc | hc <;> simp_all)
  · have := (hall r (setStatus (scanFileStatus (Config.make c o f r)
      false false DState.init) .DOWNLOADING)).1
    rw [this]
    simp [scanFileStatus, setStatus, setProgress, DState.init]
  · exact (hall r _).2.1

/-- Witness for C1: budget 2, always-failing postcheck — three fetches
from offset 0 and final status `FAILED`. -/
theorem retry_budget_attempts_and_failed_instance :
    ((download_with_retry (fun _ => false) 2 DState.init).1.fetches
        = [0, 0, 0]
      ∧ (download_with_retry (fun _ => false) 2 DState.init).1.status
        = .FAILED)
    ∧ (∃ s', fileRun (Config.make true false false 2) false false
          (fun _ => false) = .ok s'
        ∧ s'.fetches = [0, 0, 0] ∧ s'.status = .FAILED) := by
  have := retry_budget_attempts_and_failed (fun _ => false)
    (fun _ => rfl) 2 DState.init true false false 2 (Or.inl rfl)
  simpa [DState.init, List.replicate] using this

/-- With integrity checking on and every check failing, the whole
per-file pipeline ends `CORRUPTED` (precheck caught it and no
overwrite) or `FAILED` (all download attempts exhausted). -/
theorem fileRun_all_fail_status (cfg : Config) (hcheck : cfg.check = true)
    (le : Bool) (oracle : Nat → Bool) (h : ∀ i, oracle i = false) :
    ∃ s', fileRun cfg le false oracle = .ok s'
      ∧ (s'.status = .CORRUPTED ∨ s'.status = .FAILED) := by
  have hall := download_with_retry_all_fail oracle h
  obtain ⟨c, o, f, r⟩ := cfg
  cases hcheck
  cases le <;> cases f <;> cases o <;>
    simp [fileRun, scanFileStatus, download_file, should_download,
      precheck_file, setStatus, setProgress, DState.init] <;>
    exact Or.inr (hall r _).2.1

/-- C9: a file whose remote metadata carries no content hash stores
`sha256 = ''`; `check_file` compares a 64-character SHA-256 hexdigest
to it, which can never match, so with integrity checking configured the
node ends `CORRUPTED` (at precheck, kept) or `FAILED` (all attempts
exhausted) and never reaches `CHECKED` or `ALREADY_CHECKED`. -/
theorem empty_content_hash_never_verifies (hash : List Nat → String)
    (hlen : ∀ b, (hash b).length = 64) :
    (∀ content, check_file hash content "" = false)
    ∧ ∀ (c o f : Bool) (r : Nat), (c = true ∨ 0 < r) →
        ∀ (le : Bool) (preContent : List Nat) (contents : Nat → List Nat),
        ∃ s', fileRun (Config.make c o f r) le
                (check_file hash preContent "")
                (fun i => check_file hash (contents i) "") = .ok s'
          ∧ (s'.status = .CORRUPTED ∨ s'.status = .FAILED)
          ∧ s'.status ≠ .CHECKED ∧ s'.status ≠ .ALREADY_CHECKED := by
  have hfalse : ∀ content, check_file hash content "" = false := by
    intro content
    have h64 := hlen content
    simp only [check_file, beq_eq_false_iff_ne, ne_eq]
    intro heq
    rw [heq] at h64
    simp at h64
  refine ⟨hfalse, ?_⟩
  intro c o f r hc le preContent contents
  have hcheck : (Config.make c o f r).check = true := by
    rcases hc with hc | hc
    · simp [Config.make, hc]
    · simp [Config.make, hc]
  rw [hfalse preContent]
  obtain ⟨s', hrun, hst⟩ := fileRun_all_fail_status (Config.make c o f r)
    hcheck le (fun i => check_file hash (contents i) "")
    (fun i => hfalse (contents i))
  refine ⟨s', hrun, hst, ?_, ?_⟩ <;>
    rcases hst with hst | hst <;> simp [hst]

/-- Witness for C9: a concrete 64-character digest function, empty
stored hash, check+retry configured — the pipeline ends `FAILED`. -/
theorem empty_content_hash_never_verifies_instance :
    check_file (fun _ => String.mk (List.replicate 64 'a')) [1, 2] ""
      = false
    ∧ ∃ s', fileRun (Config.make true false false 1) false
          (check_file (fun _ => String.mk (List.replicate 64 'a')) [] "")
          (fun _ => check_file (fun _ => String.mk (List.replicate 64 'a'))
            ([] : List Nat) "") = .ok s'
        ∧ (s'.status = .CORRUPTED ∨ s'.status = .FAILED)
        ∧ s'.status ≠ .CHECKED ∧ s'.status ≠ .ALREADY_CHECKED := by
  have hlen : ∀ b : List Nat,
      ((fun _ : List Nat => String.mk (List.replicate 64 'a')) b).length
        = 64 := fun _ => rfl
  have hmain := empty_content_hash_never_verifies
    (fun _ => String.mk (List.replicate 64 'a')) hlen
  exact ⟨hmain.1 [1, 2],
    hmain.2 true false false 1 (Or.inl rfl) false [] (fun _ => [])⟩

/-- C6: remote errors are contained at the Scan boundary.
(1) A failed metadata fetch leaves the node exactly as it was — in
particular a fresh child keeps `kind = UNKNOWN` (2); (3) a folder
whose second listing page fails keeps the children scanned from the
first page (the walk already done is preserved, the remaining pages
are skipped, the node still becomes a `FOLDER`); (4) a child whose own
scan hits a remote error never propagates it: the parent's loop
continues with the next sibling. -/
theorem scan_remote_error_containment (cfg : Config) :
    (∀ (lh : Option String) (pages : List RPage) (s : SNode),
        scanNode cfg (.node none lh pages) s = s)
    ∧ newChild.type = .UNKNOWN
    ∧ (∀ (name : String) (sz : Nat) (sha : String) (lh : Option String)
        (rs : List Remote) (rest : List RPage),
        (scanNode cfg (.node (some ⟨name, true, sz, sha⟩) lh
            (.page rs :: .fail :: rest)) newChild).children
          = scanChildren cfg rs
        ∧ (scanNode cfg (.node (some ⟨name, true, sz, sha⟩) lh
            (.page rs :: .fail :: rest)) newChild).type = .FOLDER)
    ∧ (∀ (lh' : Option String) (pages' : List RPage) (r2 : Remote)
        (rs : List Remote),
        scanChildren cfg (.node none lh' pages' :: r2 :: rs)
          = newChild :: scanNode cfg r2 newChild :: scanChildren cfg rs) := by
  refine ⟨fun lh pages s => by simp [scanNode], rfl, ?_, ?_⟩
  · intro name sz sha lh rs rest
    constructor <;> simp [scanNode, scanPages]
  · intro lh' pages' r2 rs
    simp [scanChildren, scanNode]

/-! ### The status state machine (C4) -/

/-- The edge set of the §4.2 table as the claim lists it. -/
def specEdge : FileStatus → FileStatus → Bool
  | .PENDING, .ALREADY_PRESENT => true
  | .ALREADY_PRESENT, .ALREADY_CHECKED => true
  | .ALREADY_PRESENT, .CORRUPTED => true
  | .PENDING, .DOWNLOADING => true
  | .ALREADY_PRESENT, .DOWNLOADING => true
  | .CORRUPTED, .DOWNLOADING => true
  | .DOWNLOADING, .DOWNLOADED => true
  | .DOWNLOADING, .CHECKED => true
  | .DOWNLOADING, .FAILED => true
  | _, _ => false

/-- The edges the code actually walks: the table's edges plus the
transient `DOWNLOADED` the postcheck path goes through
(`download()` always ends with `self.status = DOWNLOADED`, and
`postcheck_file` then moves to `CHECKED` or `FAILED`) and the retry
re-entry `FAILED → DOWNLOADING`. -/
def amendEdge : FileStatus → FileStatus → Bool := fun a b =>
  specEdge a b ||
    match a, b with
    | .DOWNLOADED, .CHECKED => true
    | .DOWNLOADED, .FAILED => true
    | .FAILED, .DOWNLOADING => true
    | _, _ => false

/-- A status write either repeats the current status or follows an
actual edge. -/
def StatusStep (a b : FileStatus) : Prop := a = b ∨ amendEdge a b = true

instance (a b : FileStatus) : Decidable (StatusStep a b) :=
  inferInstanceAs (Decidable (a = b ∨ amendEdge a b = true))

/-- No edge of the extended set re-enters `PENDING`. -/
theorem amendEdge_no_pending (a : FileStatus) :
    amendEdge a .PENDING = false := by
  cases a <;> rfl

/-- A `Chain'` relates every adjacent pair of the list. -/
theorem chain'_adj {α : Type} {R : α → α → Prop} :
    ∀ l : List α, List.Chain' R l → ∀ p ∈ l.zip l.tail, R p.1 p.2 := by
  intro l
  induction l with
  | nil => simp
  | cons a t ih =>
    cases t with
    | nil => simp
    | cons b t' =>
      intro hc p hp
      rw [List.chain'_cons] at hc
      simp only [List.tail_cons, List.zip_cons_cons, List.mem_cons] at hp
      rcases hp with hp | hp
      · subst hp; exact hc.1
      · exact ih hc.2 p (by simpa using hp)

/-- The per-object invariant: the status history is a chain of actual
steps and ends at the current status. -/
def TraceOK (s : DState) : Prop :=
  List.Chain' StatusStep s.trace ∧ s.trace.getLast? = some s.status

theorem traceOK_init : TraceOK DState.init := by
  constructor <;> simp [DState.init]

theorem traceOK_setStatus {s : DState} {st : FileStatus}
    (h : TraceOK s) (hstep : StatusStep s.status st) :
    TraceOK (setStatus s st) := by
  obtain ⟨hc, hl⟩ := h
  constructor
  · refine List.Chain'.append hc (List.chain'_singleton st) ?_
    intro x hx y hy
    rw [hl] at hx
    simp at hx hy
    rw [← hx, ← hy]
    exact hstep
  · simp [setStatus, List.getLast?_append_cons]

theorem traceOK_setProgress {s : DState} {x : ℚ}
    (h : TraceOK s) : TraceOK (setProgress s x) := h

theorem traceOK_download {s : DState}
    (h : TraceOK s) (hst : StatusStep s.status .DOWNLOADING) :
    TraceOK (download s) ∧ (download s).status = .DOWNLOADED := by
  have h1 : TraceOK (setStatus s .DOWNLOADING) := traceOK_setStatus h hst
  have h2 : TraceOK ({ setStatus s .DOWNLOADING with
      fetches := (setStatus s .DOWNLOADING).fetches ++ [0] }) := h1
  have h3 : (setStatus s .DOWNLOADING).status = .DOWNLOADING := rfl
  refine ⟨traceOK_setStatus (traceOK_setProgress h2) ?_, rfl⟩
  exact Or.inr rfl

theorem traceOK_postcheck {s : DState} {b : Bool}
    (h : TraceOK s) (hst : s.status = .DOWNLOADED) :
    TraceOK (postcheck_file b s).1
    ∧ ((postcheck_file b s).1.status = .CHECKED
        ∨ (postcheck_file b s).1.status = .FAILED) := by
  cases b with
  | false =>
    refine ⟨traceOK_setStatus h ?_, Or.inr rfl⟩
    rw [hst]; exact Or.inr rfl
  | true =>
    refine ⟨traceOK_setProgress (traceOK_setStatus h ?_), Or.inl rfl⟩
    rw [hst]; exact Or.inr rfl

theorem traceOK_retry (oracle : Nat → Bool) :
    ∀ (N : Nat) (s : DState), TraceOK s →
      StatusStep s.status .DOWNLOADING →
      TraceOK (download_with_retry oracle N s).1
      ∧ ((download_with_retry oracle N s).1.status = .CHECKED
          ∨ (download_with_retry oracle N s).1.status = .FAILED) := by
  have hdwc : ∀ s : DState, TraceOK s → StatusStep s.status .DOWNLOADING →
      TraceOK (download_with_check oracle s).1
      ∧ ((download_with_check oracle s).1.status = .CHECKED
          ∨ (download_with_check oracle s).1.status = .FAILED) := by
    intro s hs hstep
    obtain ⟨hd, hds⟩ := traceOK_download hs hstep
    exact traceOK_postcheck hd hds
  intro N
  induction N with
  | zero => intro s hs hstep; exact hdwc s hs hstep
  | succ n ih =>
    intro s hs hstep
    obtain ⟨h1, h2⟩ := hdwc s hs hstep
    by_cases hok : (download_with_check oracle s).2
    · simpa [download_with_retry, hok] using ⟨h1, h2⟩
    · have hfail : (download_with_check oracle s).1.status = .FAILED := by
        rcases h2 with h2 | h2
        · exfalso
          have : (download_with_check oracle s).2 = true := by
            simp only [download_with_check] at h2 ⊢
            rcases hb : oracle ((download s).fetches.length - 1) with _ | _
            · simp [postcheck_file, hb, setStatus] at h2
            · rfl
          exact hok (by simp [this])
        · exact h2
      have := ih (download_with_check oracle s).1 h1
        (by rw [hfail]; exact Or.inr rfl)
      simpa [download_with_retry, hok] using this

/-- The scan-time writes keep the history a chain and can only leave a
FILE node at `PENDING`, `ALREADY_PRESENT`, `CORRUPTED`, or (only when
`force` is off, since `force` skips the precheck) `ALREADY_CHECKED`. -/
theorem traceOK_scan (cfg : Config) (le pre : Bool) :
    TraceOK (scanFileStatus cfg le pre DState.init)
    ∧ ((scanFileStatus cfg le pre DState.init).status = .PENDING
      ∨ (scanFileStatus cfg le pre DState.init).status = .ALREADY_PRESENT
      ∨ (scanFileStatus cfg le pre DState.init).status = .CORRUPTED
      ∨ ((scanFileStatus cfg le pre DState.init).status = .ALREADY_CHECKED
        ∧ cfg.force = false)) := by
  obtain ⟨c, o, f, r⟩ := cfg
  cases le <;> cases f <;> cases c <;> cases pre <;>
    refine ⟨⟨?_, ?_⟩, ?_⟩ <;>
    simp [scanFileStatus, setStatus, setProgress, precheck_file,
      DState.init, List.chain'_cons, StatusStep, amendEdge, specEdge]

/-- `download_file` on any status a scan can leave behind returns
normally and keeps the status history a chain of actual edges. -/
theorem traceOK_download_file (cfg : Config) (oracle : Nat → Bool)
    (s : DState) (h : TraceOK s)
    (hst : s.status = .PENDING ∨ s.status = .ALREADY_PRESENT
      ∨ s.status = .CORRUPTED
      ∨ (s.status = .ALREADY_CHECKED ∧ cfg.force = false)) :
    ∃ s', download_file cfg oracle s = .ok s' ∧ TraceOK s' := by
  rcases hsd : should_download cfg .FILE s.status with e | b
  · exfalso
    rcases hst with h1 | h1 | h1 | ⟨h1, h2⟩ <;> rw [h1] at hsd
    · cases hf : cfg.force <;> simp [should_download, hf] at hsd
    · cases hf : cfg.force <;> simp [should_download, hf] at hsd
    · cases hf : cfg.force <;> simp [should_download, hf] at hsd
    · simp [should_download, h2] at hsd
  · cases b with
    | false => exact ⟨s, by simp [download_file, hsd], h⟩
    | true =>
      have hstep : StatusStep s.status .DOWNLOADING := by
        rcases hst with h1 | h1 | h1 | ⟨h1, h2⟩
        · rw [h1]; exact Or.inr rfl
        · rw [h1]; exact Or.inr rfl
        · rw [h1]; exact Or.inr rfl
        · rw [h1] at hsd; simp [should_download, h2] at hsd
      by_cases hch : cfg.check = true
      · exact ⟨_, by simp [download_file, hsd, hch],
          (traceOK_retry oracle cfg.retry _
            (traceOK_setStatus h hstep) (Or.inl rfl)).1⟩
      · exact ⟨_, by simp [download_file, hsd, hch],
          (traceOK_download (traceOK_setStatus h hstep) (Or.inl rfl)).1⟩

/-- A chain of actual steps never moves off a terminal success state
back to `PENDING`. -/
theorem chain_no_pending_downgrade {l : List FileStatus}
    (hc : List.Chain' StatusStep l) :
    ∀ p ∈ l.zip l.tail,
      (p.1 = .DOWNLOADED ∨ p.1 = .CHECKED ∨ p.1 = .ALREADY_CHECKED) →
      p.2 ≠ .PENDING := by
  intro p hp hsucc hpen
  rcases chain'_adj l hc p hp with heq | hedge
  · rw [heq, hpen] at hsucc
    rcases hsucc with h | h | h <;> cases h
  · rw [hpen, amendEdge_no_pending] at hedge
    cases hedge

/-- C4 (amended): over every configuration, local state and check
outcome, the per-file pipeline (fresh node, scan, then the download
walk) returns normally and its full status history follows the §4.2
table extended with the edges the code actually walks
(`DOWNLOADED → CHECKED`, `DOWNLOADED → FAILED` from the postcheck, and
`FAILED → DOWNLOADING` from a retry); no node moves from a terminal
success state (`DOWNLOADED`, `CHECKED`, `ALREADY_CHECKED`) back to
`PENDING`.  A folder's history through scan and `download_folder` is
`PENDING, PENDING, DOWNLOADING, DOWNLOADED` and follows the same
edges. -/
theorem status_trace_follows_extended_edges :
    (∀ (cfg : Config) (le pre : Bool) (oracle : Nat → Bool),
      ∃ s', fileRun cfg le pre oracle = .ok s'
        ∧ List.Chain' StatusStep s'.trace
        ∧ ∀ p ∈ s'.trace.zip s'.trace.tail,
            (p.1 = .DOWNLOADED ∨ p.1 = .CHECKED ∨ p.1 = .ALREADY_CHECKED) →
            p.2 ≠ .PENDING)
    ∧ List.Chain' StatusStep
        [.PENDING, .PENDING, .DOWNLOADING, .DOWNLOADED] := by
  constructor
  · intro cfg le pre oracle
    obtain ⟨hscan, hstatus⟩ := traceOK_scan cfg le pre
    obtain ⟨s', hok, hs'⟩ := traceOK_download_file cfg oracle
      (scanFileStatus cfg le pre DState.init) hscan hstatus
    exact ⟨s', hok, hs'.1, chain_no_pending_downgrade hs'.1⟩
  · simp [List.chain'_cons, StatusStep, amendEdge, specEdge]

/-- C4 (counterexample to the claim as stated): with `--check` and
`retry = 0`, a failing postcheck makes the node's history
`PENDING, PENDING, DOWNLOADING, DOWNLOADING, DOWNLOADED, FAILED`: the
adjacent change `DOWNLOADED → FAILED` is walked but is not an edge of
the §4.2 table (the table only has `DOWNLOADING → FAILED`). -/
theorem status_trace_leaves_spec_edges :
    fileRun (Config.make true false false 0) false false (fun _ => false)
      = .ok { status := .FAILED, progress := 1,
              trace := [.PENDING, .PENDING, .DOWNLOADING, .DOWNLOADING,
                .DOWNLOADED, .FAILED],
              fetches := [0] }
    ∧ ((FileStatus.DOWNLOADED, FileStatus.FAILED) ∈
        ([.PENDING, .PENDING, .DOWNLOADING, .DOWNLOADING,
          .DOWNLOADED, .FAILED] : List FileStatus).zip
        ([.PENDING, .PENDING, .DOWNLOADING, .DOWNLOADING,
          .DOWNLOADED, .FAILED] : List FileStatus).tail)
    ∧ specEdge .DOWNLOADED .FAILED = false
    ∧ FileStatus.DOWNLOADED ≠ FileStatus.FAILED := by
  refine ⟨?_, by decide, by decide, by decide⟩
  rfl

/-- `download_file` returns normally from every status
`should_download` handles. -/
theorem download_file_safe_ok (cfg : Config) (oracle : Nat → Bool)
    (s : DState) (hsafe : fileStatusSafe cfg s.status = true) :
    ∃ d, download_file cfg oracle s = .ok d := by
  rcases hsd : should_download cfg .FILE s.status with e | b
  · exfalso
    cases hf : cfg.force with
    | true => simp [should_download, hf] at hsd
    | false =>
      cases hst : s.status <;> rw [hst] at hsd hsafe <;>
        simp [should_download, hf, fileStatusSafe] at hsd hsafe
  · cases b with
    | false => exact ⟨s, by simp [download_file, hsd]⟩
    | true =>
      by_cases hch : cfg.check = true
      · exact ⟨(download_with_retry oracle cfg.retry
          (setStatus s .DOWNLOADING)).1, by simp [download_file, hsd, hch]⟩
      · exact ⟨download (setStatus s .DOWNLOADING),
          by simp [download_file, hsd, hch]⟩

mutual
/-- On a tree whose FILE nodes all hold statuses `should_download`
handles, the download walk returns normally and only ever adds
directories to the filesystem. -/
theorem download_recursive_safe_ok (cfg : Config) :
    ∀ (t : DTree) (fs : List String), treeSafe cfg t = true →
      ∃ r, download_recursive cfg t fs = .ok r ∧ ∀ d ∈ fs, d ∈ r.2
  | .mk ty path st oracle cs, fs, hsafe => by
    cases ty with
    | FOLDER =>
      have hcs : treeSafeList cfg cs = true := by
        simp [treeSafe] at hsafe
        exact hsafe
      obtain ⟨r, hok, hmono⟩ := download_children_safe_ok cfg cs
        (if path ∈ fs then fs else path :: fs) hcs
      refine ⟨(.mk .FOLDER path .DOWNLOADED oracle r.1, r.2),
        by simp [download_recursive, hok], ?_⟩
      intro d hd
      apply hmono
      by_cases hp : path ∈ fs <;> simp [hp, hd]
    | FILE =>
      have hst : fileStatusSafe cfg st = true := by
        simp [treeSafe] at hsafe
        exact hsafe.1
      obtain ⟨d, hok⟩ := download_file_safe_ok cfg oracle
        { status := st, progress := 0, trace := [st], fetches := [] } hst
      exact ⟨(.mk .FILE path d.status oracle cs, fs),
        by simp [download_recursive, hok], fun _ hd => hd⟩
    | UNKNOWN =>
      exact ⟨(.mk .UNKNOWN path st oracle cs, fs),
        by simp [download_recursive], fun _ hd => hd⟩

theorem download_children_safe_ok (cfg : Config) :
    ∀ (cs : List DTree) (fs : List String), treeSafeList cfg cs = true →
      ∃ r, download_children cfg cs fs = .ok r ∧ ∀ d ∈ fs, d ∈ r.2
  | [], fs, _ => ⟨([], fs), by simp [download_children], fun _ hd => hd⟩
  | c :: cs, fs, hsafe => by
    have hc : treeSafe cfg c = true := by
      simp [treeSafeList] at hsafe
      exact hsafe.1
    have hcs : treeSafeList cfg cs = true := by
      simp [treeSafeList] at hsafe
      exact hsafe.2
    obtain ⟨r1, hok1, hmono1⟩ := download_recursive_safe_ok cfg c fs hc
    obtain ⟨r2, hok2, hmono2⟩ := download_children_safe_ok cfg cs r1.2 hcs
    exact ⟨(r1.1 :: r2.1, r2.2),
      by simp [download_children, hok1, hok2],
      fun d hd => hmono2 d (hmono1 d hd)⟩
end

/-- C10: `download_recursive` on a FOLDER node (via `download_folder`)
creates the directory if absent, processes all children in order
(`download_children`), and then sets the folder's status to
`DOWNLOADED` unconditionally — whatever the children's outcomes
(`FAILED`, `CORRUPTED` kept, or skipped), the folder ends in the
terminal success status `DOWNLOADED`. -/
theorem download_folder_unconditional_downloaded
    (cfg : Config) (path : String) (st : FileStatus)
    (oracle : Nat → Bool) (cs : List DTree) (fs : List String)
    (hsafe : treeSafeList cfg cs = true) :
    ∃ r, download_children cfg cs
          (if path ∈ fs then fs else path :: fs) = .ok r
      ∧ download_recursive cfg (.mk .FOLDER path st oracle cs) fs
          = .ok (.mk .FOLDER path .DOWNLOADED oracle r.1, r.2)
      ∧ path ∈ r.2 := by
  obtain ⟨r, hok, hmono⟩ := download_children_safe_ok cfg cs
    (if path ∈ fs then fs else path :: fs) hsafe
  refine ⟨r, hok, by simp [download_recursive, hok], ?_⟩
  apply hmono
  by_cases hp : path ∈ fs <;> simp [hp]

/-- Witness for C10: a folder with two `PENDING` file children whose
postchecks always fail — every child ends `FAILED`, yet the folder
ends `DOWNLOADED`. -/
theorem download_folder_unconditional_downloaded_instance :
    treeSafeList (Config.make true false false 0)
      [.mk .FILE "d/a" .PENDING (fun _ => false) [],
       .mk .FILE "d/b" .PENDING (fun _ => false) []] = true
    ∧ ∃ r, download_children (Config.make true false false 0)
          [.mk .FILE "d/a" .PENDING (fun _ => false) [],
           .mk .FILE "d/b" .PENDING (fun _ => false) []]
          (if "d" ∈ ([] : List String) then [] else ["d"]) = .ok r
      ∧ download_recursive (Config.make true false false 0)
          (.mk .FOLDER "d" .PENDING (fun _ => false)
            [.mk .FILE "d/a" .PENDING (fun _ => false) [],
             .mk .FILE "d/b" .PENDING (fun _ => false) []]) []
          = .ok (.mk .FOLDER "d" .DOWNLOADED (fun _ => false) r.1, r.2)
      ∧ "d" ∈ r.2 := by
  have hsafe : treeSafeList (Config.make true false false 0)
      [.mk .FILE "d/a" .PENDING (fun _ => false) [],
       .mk .FILE "d/b" .PENDING (fun _ => false) []] = true := by
    simp [treeSafeList, treeSafe, fileStatusSafe]
  exact ⟨hsafe, download_folder_unconditional_downloaded
    (Config.make true false false 0) "d" .PENDING (fun _ => false)
    [.mk .FILE "d/a" .PENDING (fun _ => false) [],
     .mk .FILE "d/b" .PENDING (fun _ => false) []] [] hsafe⟩

end Gddload
